import Mathlib

/-
Shallow embedding of nornir_table_inventory/plugins/inventory/table.py.

Raw rows are association lists from field names to loosely typed scalar
cells, exactly as the CSV/Excel adapters hand them to the core.  The
nornir container classes (Host, Group, Defaults, ConnectionOptions,
Inventory) are external collaborators; they are embedded as plain records
that store what the constructor receives, with the one documented
normalisation nornir performs (a missing groups argument becomes an empty
parent list).
-/

namespace TableInv

/-- A scalar cell value as produced by the file adapters: Python strings,
ints, floats (NaN kept as its own case), booleans and None.  The payload of
a non-NaN float is kept as a rational; its exact textual rendering is not
load-bearing for any verified property. -/
inductive Value where
  | none : Value
  | nan : Value
  | str : String → Value
  | int : Int → Value
  | float : Rat → Value
  | bool : Bool → Value
deriving DecidableEq, Repr

/-- A raw row: an insertion-ordered mapping from field name to cell value. -/
abbrev Row := List (String × Value)

/-- Python exception classes that the core can raise. -/
inductive PyError where
  | valueError : PyError
  | typeError : PyError
  | attributeError : PyError
  | keyError : String → PyError
  | loadError : String → PyError
deriving DecidableEq, Repr

/-- First-match lookup in a string-keyed row, `data.get(k)` style (but
distinguishing absence from a stored None). -/
def alookupS : Row → String → Option Value
  | [], _ => Option.none
  | (k', v) :: rest, k => if k' = k then some v else alookupS rest k

/-- `data.get(k)`: absent keys give Python None. -/
def dictGet (d : Row) (k : String) : Value := (alookupS d k).getD Value.none

/-- `data.get(k, dflt)`. -/
def dictGetD (d : Row) (k : String) (dflt : Value) : Value := (alookupS d k).getD dflt

/-- Python dict assignment `m[k] = v`: update in place if the key exists,
else append, preserving insertion order. -/
def dictInsertS : Row → String → Value → Row
  | [], k, v => [(k, v)]
  | (k', v') :: rest, k, v => if k' = k then (k', v) :: rest else (k', v') :: dictInsertS rest k v

/-- `_empty(x)`: x is None, or a float NaN, or equal to the empty string
(Python `x == ""` is False for every non-string). -/
def pyEmpty : Value → Bool
  | Value.none => true
  | Value.nan => true
  | Value.str s => s == ""
  | Value.int _ => false
  | Value.float _ => false
  | Value.bool _ => false

/-- Python truthiness of a cell value (`if x:`). -/
def truthy : Value → Bool
  | Value.none => false
  | Value.nan => true
  | Value.str s => !(s == "")
  | Value.int n => !(n == 0)
  | Value.float q => !(q == 0)
  | Value.bool b => b

/-- Python `str(x)`.  Integral floats render with a trailing ".0" as in
Python; other float payloads use the rational's own rendering, which no
verified property depends on. -/
def pyStr : Value → String
  | Value.none => "None"
  | Value.nan => "nan"
  | Value.str s => s
  | Value.int n => toString n
  | Value.float q => if q.den == 1 then toString q.num ++ ".0" else toString q
  | Value.bool b => if b then "True" else "False"

/-- Decimal digit run to a natural number. -/
def digitsToNat (l : List Char) : Nat := l.foldl (fun a c => a * 10 + (c.toNat - 48)) 0

/-- Python `int(s)` on a string: optional surrounding whitespace, optional
sign, then a non-empty digit run; anything else is a ValueError. -/
def parseIntChars (l : List Char) : Option Int :=
  let t := ((l.dropWhile Char.isWhitespace).reverse.dropWhile Char.isWhitespace).reverse
  match t with
  | [] => Option.none
  | c :: ds =>
    if c = '+' then
      if ds.isEmpty then Option.none
      else if ds.all Char.isDigit then some (digitsToNat ds : Int) else Option.none
    else if c = '-' then
      if ds.isEmpty then Option.none
      else if ds.all Char.isDigit then some (-(digitsToNat ds : Int)) else Option.none
    else
      if (c :: ds).all Char.isDigit then some (digitsToNat (c :: ds) : Int) else Option.none

/-- Python `int(v)` on a cell value: strings are parsed (ValueError on
failure), ints pass through, non-NaN floats truncate toward zero, NaN is a
ValueError, booleans are 0/1, None is a TypeError. -/
def pyIntE : Value → Except PyError Int
  | Value.str s =>
    match parseIntChars s.data with
    | some n => Except.ok n
    | Option.none => Except.error PyError.valueError
  | Value.int n => Except.ok n
  | Value.float q => Except.ok (if 0 ≤ q then Rat.floor q else Rat.ceil q)
  | Value.nan => Except.error PyError.valueError
  | Value.bool b => Except.ok (if b then 1 else 0)
  | Value.none => Except.error PyError.typeError

/-- The fixed vendor marker `'netmiko_'` as a character list. -/
def netmikoChars : List Char := "netmiko_".data

/-- Python `'netmiko_' in k`: substring containment, not a prefix test. -/
def hasNetmiko (k : String) : Bool := decide (netmikoChars <:+: k.data)

/-- Python `k.replace('netmiko_', '')` over a character list: scan left to
right, deleting every non-overlapping occurrence of the marker.  The fuel
argument (instantiated with the list's length, which bounds the number of
scan steps) keeps the recursion structural. -/
def stripNetmikoGo : Nat → List Char → List Char
  | 0, l => l
  | _, [] => []
  | fuel + 1, c :: rest =>
    if netmikoChars.isPrefixOf (c :: rest) then stripNetmikoGo fuel (rest.drop 7)
    else c :: stripNetmikoGo fuel rest

/-- `k.replace('netmiko_', '')` on a character list. -/
def stripNetmikoList (l : List Char) : List Char := stripNetmikoGo l.length l

/-- `k.replace('netmiko_', '')`. -/
def stripNetmiko (k : String) : String := String.mk (stripNetmikoList k.data)

/-- Python `s.split(',')` (non-empty separator semantics). -/
def splitComma : List Char → List String
  | [] => [""]
  | c :: rest =>
    match splitComma rest with
    | [] => []
    | s :: ss => if c = ',' then "" :: s :: ss else String.mk (c :: s.data) :: ss

/-- The fixed identity fields excluded from free-form data. -/
def no_data_fields : List String := ["name", "hostname", "port", "username", "password", "platform"]

/-- The groups key, additionally excluded when the isDefaults flag is set. -/
def groupsKey : String := "groups"

/-- Normalisation of a retained value: empty cells become an explicit
no-value marker instead of being dropped. -/
def normEmpty (v : Value) : Value := if pyEmpty v then Value.none else v

/-- The `no_data_fields` list after the optional `groups` append. -/
def fieldsFor (isDefaults : Bool) : List String :=
  if isDefaults then no_data_fields ++ [groupsKey] else no_data_fields

/-- `_get_data(data, isDefaults)`: keep the fields that are neither
identity fields (plus `groups` under the flag) nor contain the vendor
marker as a substring; empty values become None. -/
def _get_data (data : Row) (isDefaults : Bool) : Row :=
  data.filterMap fun kv =>
    if !((fieldsFor isDefaults).contains kv.1) && !(hasNetmiko kv.1) then
      some (kv.1, normEmpty kv.2)
    else Option.none

/-- Suffixes coerced to int in the connection extras. -/
def int_keys : List String :=
  ["timeout", "conn_timeout", "auth_timeout", "banner_timeout", "blocking_timeout", "session_timeout"]

/-- Suffixes coerced to bool in the connection extras. -/
def bool_keys : List String := ["fast_cli"]

/-- `s.lower()` over the character list (the compared values here are
ASCII). -/
def pyLower (s : String) : String := String.mk (s.data.map Char.toLower)

/-- `str(v).lower() in ['0', 'false', 'none']` negated: the boolean coercion
for `fast_cli`-style keys. -/
def boolCoerce (v : Value) : Bool := !(["0", "false", "none"].contains (pyLower (pyStr v)))

/-- One iteration of the `_get_host_netmiko_options` loop body for a field
`(k, v)` over the accumulated `extra_opts`. -/
def netmikoStep (acc : Row) (k : String) (v : Value) : Except PyError Row :=
  if hasNetmiko k then
    let nk := stripNetmiko k
    if int_keys.contains nk then
      match pyIntE v with
      | Except.ok n => Except.ok (dictInsertS acc nk (Value.int n))
      | Except.error e => Except.error e
    else if bool_keys.contains nk then
      Except.ok (dictInsertS acc nk (Value.bool (boolCoerce v)))
    else
      Except.ok (dictInsertS acc nk (normEmpty v))
  else Except.ok acc

/-- The `_get_host_netmiko_options` loop: fold the step over the row. -/
def netmikoFold (acc : Row) : Row → Except PyError Row
  | [] => Except.ok acc
  | (k, v) :: rest =>
    match netmikoStep acc k v with
    | Except.ok acc2 => netmikoFold acc2 rest
    | Except.error e => Except.error e

/-- A nornir ConnectionOptions record: optional per-connection overrides
plus the open extras mapping. -/
structure ConnectionOptions where
  hostname : Value
  port : Value
  username : Value
  password : Value
  platform : Value
  extras : Option Row
deriving DecidableEq, Repr

/-- `_get_host_netmiko_options(data)`: when any extras were collected, wrap
them as the extras of the single `netmiko` connection-options entry (the
`_get_connection_options` call finds no hostname/port/... keys in the
wrapper dict, so those overrides are all None); otherwise return an empty
mapping. -/
def _get_host_netmiko_options (data : Row) : Except PyError (List (String × ConnectionOptions)) :=
  match netmikoFold [] data with
  | Except.error e => Except.error e
  | Except.ok [] => Except.ok []
  | Except.ok extras =>
    Except.ok [("netmiko", ⟨Value.none, Value.none, Value.none, Value.none, Value.none, some extras⟩)]

/-- The groups argument a Host/Group constructor receives: either the raw
unsplit cell (falsy values are left untouched by the builder) or the
comma-split list of names. -/
inductive GroupsField where
  | raw : Value → GroupsField
  | list : List String → GroupsField
deriving DecidableEq, Repr

/-- A nornir Host or Group as constructed by the builder (both have the
same shape here; the defaults reference a Host stores is only consumed by
nornir's use-time resolution, which is outside this core). -/
structure HostRecord where
  name : Value
  hostname : Value
  port : Value
  username : Value
  password : Value
  platform : Value
  data : Row
  groups : GroupsField
  connection_options : List (String × ConnectionOptions)
deriving DecidableEq, Repr

/-- A nornir Defaults record as constructed by `_get_defaults`. -/
structure DefaultsRecord where
  hostname : Value
  port : Value
  username : Value
  password : Value
  platform : Value
  data : Row
  connection_options : List (String × ConnectionOptions)
deriving DecidableEq, Repr

/-- `Defaults()`: the empty defaults used when no defaults row is given. -/
def emptyDefaults : DefaultsRecord :=
  ⟨Value.none, Value.none, Value.none, Value.none, Value.none, [], []⟩

/-- `if name: name = str(name)` — the name field has no emptiness check. -/
def coerceName (v : Value) : Value := if truthy v then Value.str (pyStr v) else v

/-- `if x: x = str(x) if not _empty(x) else None` for hostname, username,
password and platform. -/
def coerceStr (v : Value) : Value :=
  if truthy v then (if pyEmpty v then Value.none else Value.str (pyStr v)) else v

/-- `if port: port = int(port) if not _empty(port) else None`. -/
def coerceInt (v : Value) : Except PyError Value :=
  if truthy v then
    (if pyEmpty v then Except.ok Value.none
     else match pyIntE v with
          | Except.ok n => Except.ok (Value.int n)
          | Except.error e => Except.error e)
  else Except.ok v

/-- `if groups: groups = [x for x in groups.split(',')]` — truthy
non-strings have no `.split` (AttributeError); falsy cells stay raw. -/
def parseGroups (v : Value) : Except PyError GroupsField :=
  if truthy v then
    match v with
    | Value.str s => Except.ok (GroupsField.list (splitComma s.data))
    | _ => Except.error PyError.attributeError
  else Except.ok (GroupsField.raw v)

/-- `_get_inventory_element(typ, data, defaults)`: identity-field coercion,
group splitting, free-form data and connection options; the defaults
argument is only stored on the constructed object. -/
def _get_inventory_element (data : Row) (defaults : DefaultsRecord) : Except PyError HostRecord :=
  match coerceInt (dictGetD data "port" (Value.int 22)) with
  | Except.error e => Except.error e
  | Except.ok port =>
    match parseGroups (dictGet data groupsKey) with
    | Except.error e => Except.error e
    | Except.ok groups =>
      match _get_host_netmiko_options data with
      | Except.error e => Except.error e
      | Except.ok copts =>
        Except.ok
          { name := coerceName (dictGet data "name")
            hostname := coerceStr (dictGet data "hostname")
            port := port
            username := coerceStr (dictGet data "username")
            password := coerceStr (dictGet data "password")
            platform := coerceStr (dictGet data "platform")
            data := _get_data data false
            groups := groups
            connection_options := copts }

/-- `_get_defaults(data)`: the source coerces local copies of the identity
fields but the returned Defaults is built from the raw `data.get(...)`
values; the discarded `int(port)` conversion can still raise, so its effect
is kept.  Note the source calls `_get_data(data)` without `isDefaults`. -/
def _get_defaults (data : Row) : Except PyError DefaultsRecord :=
  match coerceInt (dictGet data "port") with
  | Except.error e => Except.error e
  | Except.ok _ =>
    match _get_host_netmiko_options data with
    | Except.error e => Except.error e
    | Except.ok copts =>
      Except.ok
        { hostname := dictGet data "hostname"
          port := dictGet data "port"
          username := dictGet data "username"
          password := dictGet data "password"
          platform := dictGet data "platform"
          data := _get_data data false
          connection_options := copts }

/-- The hosts/groups containers: insertion-ordered mappings keyed by the
raw name cell (Python dict keys). -/
abbrev EntityMap := List (Value × HostRecord)

/-- First-match lookup in an entity map (`groups[x]`-style, but returning
an Option so a missing key can surface as a KeyError at the call site). -/
def alookupV : EntityMap → Value → Option HostRecord
  | [], _ => Option.none
  | (k', v) :: rest, k => if k' = k then some v else alookupV rest k

/-- Python dict assignment into an entity map: last write wins, first
insertion position kept. -/
def dictInsertV : EntityMap → Value → HostRecord → EntityMap
  | [], k, v => [(k, v)]
  | (k', v') :: rest, k, v =>
    if k' = k then (k', v) :: rest else (k', v') :: dictInsertV rest k v

/-- The final Inventory aggregate. -/
structure Inventory where
  hosts : EntityMap
  groups : EntityMap
  defaults : DefaultsRecord
deriving DecidableEq, Repr

/-- The group/host insertion loop of `FlatDataInventory.load`: for each
row, `g['name']` is read by direct subscript (KeyError when absent), then
checked for emptiness (the load is aborted with the literal message `HOST
name must not be empty` for group rows and host rows alike), then the
record is built and inserted keyed by the raw name cell. -/
def buildEntities (defaults : DefaultsRecord) : List Row → EntityMap → Except PyError EntityMap
  | [], acc => Except.ok acc
  | r :: rest, acc =>
    match alookupS r "name" with
    | Option.none => Except.error (PyError.keyError "name")
    | some nv =>
      if pyEmpty nv then Except.error (PyError.loadError "HOST name must not be empty")
      else
        match _get_inventory_element r defaults with
        | Except.error e => Except.error e
        | Except.ok rec => buildEntities defaults rest (dictInsertV acc nv rec)

/-- Iterating the groups argument a constructor stored: a split list gives
its names; a stored None was normalised by nornir to an empty ParentGroups;
iterating a string yields its characters (only the falsy empty string can
reach this case, giving no names); iterating any other scalar is a
TypeError. -/
def groupNames : GroupsField → Except PyError (List String)
  | GroupsField.list l => Except.ok l
  | GroupsField.raw Value.none => Except.ok []
  | GroupsField.raw (Value.str s) => Except.ok (s.data.map fun c => String.mk [c])
  | GroupsField.raw _ => Except.error PyError.typeError

/-- `[groups[x] for x in names]`: each name is looked up left to right in
the completed groups mapping; the first missing name is a KeyError. -/
def resolveNames (gmap : EntityMap) : List String → Except PyError (List String)
  | [] => Except.ok []
  | n :: rest =>
    match alookupV gmap (Value.str n) with
    | Option.none => Except.error (PyError.keyError n)
    | some _ =>
      match resolveNames gmap rest with
      | Except.ok t => Except.ok (n :: t)
      | Except.error e => Except.error e

/-- `x.groups = ParentGroups([groups[g] for g in x.groups])` for one
entity: the stored group-name strings become resolved references (modelled
by their names, which key the live records in the groups mapping). -/
def resolveRecord (gmap : EntityMap) (rec : HostRecord) : Except PyError HostRecord :=
  match groupNames rec.groups with
  | Except.error e => Except.error e
  | Except.ok names =>
    match resolveNames gmap names with
    | Except.error e => Except.error e
    | Except.ok resolved => Except.ok { rec with groups := GroupsField.list resolved }

/-- The resolution loop over an entity map's values. -/
def resolveMap (gmap : EntityMap) : EntityMap → Except PyError EntityMap
  | [] => Except.ok []
  | (k, rec) :: rest =>
    match resolveRecord gmap rec with
    | Except.error e => Except.error e
    | Except.ok rec2 =>
      match resolveMap gmap rest with
      | Except.ok t => Except.ok ((k, rec2) :: t)
      | Except.error e => Except.error e

/-- Step 1 of `load`: `if self.defaults_data: defaults = _get_defaults(...)`. -/
def defaultsStage (dd : Row) : Except PyError DefaultsRecord :=
  if dd.isEmpty then Except.ok emptyDefaults else _get_defaults dd

/-- Steps 2 and 3 of `load`: build and then resolve the groups, both under
`if self.groups_data:`. -/
def groupsStage (d : DefaultsRecord) (gd : List Row) : Except PyError EntityMap :=
  if gd.isEmpty then Except.ok []
  else
    match buildEntities d gd [] with
    | Except.error e => Except.error e
    | Except.ok g => resolveMap g g

/-- Steps 4 and 5 of `load`: build the hosts, then resolve each host's
group list against the completed groups mapping. -/
def hostsStage (d : DefaultsRecord) (g : EntityMap) (hd : List Row) : Except PyError EntityMap :=
  match buildEntities d hd [] with
  | Except.error e => Except.error e
  | Except.ok h0 => resolveMap g h0

/-- `FlatDataInventory.load`: defaults, then groups, then hosts; any raised
error aborts the whole load with no Inventory. -/
def load (hosts_data groups_data : List Row) (defaults_data : Row) : Except PyError Inventory :=
  match defaultsStage defaults_data with
  | Except.error e => Except.error e
  | Except.ok d =>
    match groupsStage d groups_data with
    | Except.error e => Except.error e
    | Except.ok g =>
      match hostsStage d g hosts_data with
      | Except.error e => Except.error e
      | Except.ok h => Except.ok ⟨h, g, d⟩

/-- Whether an Except result is a success. -/
def isOkE {α : Type} : Except PyError α → Bool
  | Except.ok _ => true
  | Except.error _ => false

instance {α : Type} [DecidableEq α] : DecidableEq (Except PyError α) := fun a b =>
  match a, b with
  | Except.ok x, Except.ok y =>
    if h : x = y then isTrue (by rw [h]) else isFalse (by simp [h])
  | Except.error e, Except.error f =>
    if h : e = f then isTrue (by rw [h]) else isFalse (by simp [h])
  | Except.ok _, Except.error _ => isFalse (by simp)
  | Except.error _, Except.ok _ => isFalse (by simp)

/-- Sample row for evaluating the host/group builder on ordinary input. -/
def c2data : Row :=
  [("name", Value.str "r1"), ("hostname", Value.str "10.0.0.1"), ("port", Value.str "2222")]

/-- The record the builder produces from `c2data`. -/
def c2rec : HostRecord :=
  { name := Value.str "r1", hostname := Value.str "10.0.0.1", port := Value.int 2222
    username := Value.none, password := Value.none, platform := Value.none
    data := [], groups := GroupsField.raw Value.none, connection_options := [] }

/-- A defaults row holding a groups cell and a key that merely contains the
vendor marker without beginning with it. -/
def c3row : Row := [("groups", Value.str "g"), ("a_netmiko_b", Value.str "v")]

/-- The Defaults record built from `c3row`. -/
def c3rec : DefaultsRecord :=
  { hostname := Value.none, port := Value.none, username := Value.none
    password := Value.none, platform := Value.none
    data := [("groups", Value.str "g")]
    connection_options :=
      [("netmiko",
        ⟨Value.none, Value.none, Value.none, Value.none, Value.none,
         some [("a_b", Value.str "v")]⟩)] }

/-- Sample hosts input for a fully successful load. -/
def c6hosts : List Row := [[("name", Value.str "r1"), ("groups", Value.str "core")]]

/-- Sample groups input for a fully successful load. -/
def c6groups : List Row := [[("name", Value.str "core")]]

/-- The host entry the load produces from `c6hosts`. -/
def c6hostEntry : Value × HostRecord :=
  (Value.str "r1",
   { name := Value.str "r1", hostname := Value.none, port := Value.int 22
     username := Value.none, password := Value.none, platform := Value.none
     data := [("groups", Value.str "core")]
     groups := GroupsField.list ["core"], connection_options := [] })

/-- The group entry the load produces from `c6groups`. -/
def c6groupEntry : Value × HostRecord :=
  (Value.str "core",
   { name := Value.str "core", hostname := Value.none, port := Value.int 22
     username := Value.none, password := Value.none, platform := Value.none
     data := [], groups := GroupsField.list [], connection_options := [] })

/-- The inventory the load produces from `c6hosts`/`c6groups` with no
defaults row. -/
def c6inv : Inventory :=
  { hosts := [c6hostEntry], groups := [c6groupEntry], defaults := emptyDefaults }

/-- A host row with no port cell. -/
def c7row : Row := [("name", Value.str "r1")]

/-- The record the builder produces from `c7row`. -/
def c7rec : HostRecord :=
  { name := Value.str "r1", hostname := Value.none, port := Value.int 22
    username := Value.none, password := Value.none, platform := Value.none
    data := [], groups := GroupsField.raw Value.none, connection_options := [] }

/-- A defaults row with no port cell. -/
def c7drow : Row := [("username", Value.str "u")]

/-- The Defaults record built from `c7drow`. -/
def c7drec : DefaultsRecord :=
  { hostname := Value.none, port := Value.none, username := Value.str "u"
    password := Value.none, platform := Value.none, data := [], connection_options := [] }

/-- Stated from the amended claim's words: the scalar identity fields are
coerced to a string when the value is truthy; a NaN (the only truthy empty
value) is replaced by an explicit no-value; every falsy value — None, the
empty string, zero, False — passes through unchanged. -/
def amendedScalarCoercion (v : Value) : Value :=
  if v = Value.nan then Value.none
  else if truthy v then Value.str (pyStr v) else v

/-- Stated from the amended claim's words: the port field is coerced with
`int` when the value is truthy, NaN becomes an explicit no-value, and falsy
values pass through unchanged. -/
def amendedIntCoercion (v : Value) : Except PyError Value :=
  if v = Value.nan then Except.ok Value.none
  else if truthy v then
    match pyIntE v with
    | Except.ok n => Except.ok (Value.int n)
    | Except.error e => Except.error e
  else Except.ok v

/-- A row on which the per-row processing of the assembler's insertion loop
cannot succeed: the name lookup fails, or the name is empty, or the record
build itself fails. -/
def rowFails (r : Row) : Prop :=
  match alookupS r "name" with
  | Option.none => True
  | some v => pyEmpty v = true ∨ ∀ d rec, _get_inventory_element r d ≠ Except.ok rec

lemma coerceStr_eq_amended (v : Value) : coerceStr v = amendedScalarCoercion v := by
  cases v with
  | str s =>
    by_cases hs : s = "" <;>
      simp [coerceStr, amendedScalarCoercion, truthy, pyEmpty, hs]
  | int n =>
    by_cases hn : n = 0 <;>
      simp [coerceStr, amendedScalarCoercion, truthy, pyEmpty, hn]
  | float q =>
    by_cases hq : q = 0 <;>
      simp [coerceStr, amendedScalarCoercion, truthy, pyEmpty, hq]
  | bool b => cases b <;> decide
  | none => decide
  | nan => decide

lemma coerceInt_eq_amended (v : Value) : coerceInt v = amendedIntCoercion v := by
  cases v with
  | str s =>
    by_cases hs : s = "" <;>
      simp [coerceInt, amendedIntCoercion, truthy, pyEmpty, hs]
  | int n =>
    by_cases hn : n = 0 <;>
      simp [coerceInt, amendedIntCoercion, truthy, pyEmpty, pyIntE, hn]
  | float q =>
    by_cases hq : q = 0 <;>
      simp [coerceInt, amendedIntCoercion, truthy, pyEmpty, pyIntE, hq]
  | bool b => cases b <;> decide
  | none => decide
  | nan => decide

lemma element_ok_fields {data : Row} {d : DefaultsRecord} {rec : HostRecord}
    (hok : _get_inventory_element data d = Except.ok rec) :
    coerceInt (dictGetD data "port" (Value.int 22)) = Except.ok rec.port ∧
    rec.name = coerceName (dictGet data "name") ∧
    rec.hostname = coerceStr (dictGet data "hostname") ∧
    rec.username = coerceStr (dictGet data "username") ∧
    rec.password = coerceStr (dictGet data "password") ∧
    rec.platform = coerceStr (dictGet data "platform") ∧
    rec.data = _get_data data false ∧
    parseGroups (dictGet data groupsKey) = Except.ok rec.groups ∧
    _get_host_netmiko_options data = Except.ok rec.connection_options := by
  unfold _get_inventory_element at hok
  cases hc : coerceInt (dictGetD data "port" (Value.int 22)) <;> rw [hc] at hok
  case error e => exact absurd hok (by simp)
  case ok p =>
  cases hg : parseGroups (dictGet data groupsKey) <;> rw [hg] at hok
  case error e => exact absurd hok (by simp)
  case ok gs =>
  cases hn : _get_host_netmiko_options data <;> rw [hn] at hok
  case error e => exact absurd hok (by simp)
  case ok cop =>
  injection hok with h
  subst h
  exact ⟨rfl, rfl, rfl, rfl, rfl, rfl, rfl, rfl, rfl⟩

lemma defaults_ok_fields {data : Row} {rec : DefaultsRecord}
    (hok : _get_defaults data = Except.ok rec) :
    rec.hostname = dictGet data "hostname" ∧
    rec.port = dictGet data "port" ∧
    rec.username = dictGet data "username" ∧
    rec.password = dictGet data "password" ∧
    rec.platform = dictGet data "platform" ∧
    rec.data = _get_data data false ∧
    _get_host_netmiko_options data = Except.ok rec.connection_options := by
  unfold _get_defaults at hok
  cases hc : coerceInt (dictGet data "port") <;> rw [hc] at hok
  case error e => exact absurd hok (by simp)
  case ok p =>
  cases hn : _get_host_netmiko_options data <;> rw [hn] at hok
  case error e => exact absurd hok (by simp)
  case ok cop =>
  injection hok with h
  subst h
  exact ⟨rfl, rfl, rfl, rfl, rfl, rfl, rfl⟩

/-- C9: the emptiness predicate holds exactly for the null marker, the NaN
numeric and the empty string, and is false for zero, False and non-empty
(such as whitespace-only) strings. -/
theorem spec_C9 :
    (∀ v : Value, pyEmpty v = true ↔ (v = Value.none ∨ v = Value.nan ∨ v = Value.str "")) ∧
    pyEmpty (Value.int 0) = false ∧
    pyEmpty (Value.float 0) = false ∧
    pyEmpty (Value.bool false) = false ∧
    (∀ s : String, s ≠ "" → pyEmpty (Value.str s) = false) := by
  refine ⟨?_, rfl, rfl, rfl, ?_⟩
  · intro v
    cases v <;> simp [pyEmpty]
  · intro s hs
    simp [pyEmpty, hs]

/-- C9 witness: the predicate applied through the theorem at the
whitespace-only string. -/
theorem spec_C9_w : pyEmpty (Value.str " ") = false :=
  spec_C9.2.2.2.2 " " (by decide)

/-- C1 (code bug in `_get_defaults`): the defaults build computes coerced
identity fields but returns the raw cell values, so a numeric-string port
stays a string and an empty-string hostname is not left unset. -/
theorem spec_C1 :
    _get_defaults [("hostname", Value.str ""), ("port", Value.str "8022")] =
      Except.ok
        { hostname := Value.str "", port := Value.str "8022", username := Value.none
          password := Value.none, platform := Value.none, data := []
          connection_options := [] } ∧
    Value.str "8022" ≠ Value.int 8022 ∧
    Value.str "" ≠ Value.none ∧
    pyEmpty (Value.str "") = true := by
  exact ⟨by decide, by decide, by decide, rfl⟩

/-- C7: a wholly absent port cell gives a host/group record port of the
integer 22, while the defaults build leaves an absent port unset. -/
theorem spec_C7 :
    (∀ (data : Row) (d : DefaultsRecord) (rec : HostRecord),
        alookupS data "port" = Option.none →
        _get_inventory_element data d = Except.ok rec → rec.port = Value.int 22) ∧
    (∀ (data : Row) (rec : DefaultsRecord),
        alookupS data "port" = Option.none →
        _get_defaults data = Except.ok rec → rec.port = Value.none) := by
  constructor
  · intro data d rec hport hok
    have h := (element_ok_fields hok).1
    rw [show dictGetD data "port" (Value.int 22) = Value.int 22 from by
          simp [dictGetD, hport]] at h
    rw [show coerceInt (Value.int 22) = Except.ok (Value.int 22) from by decide] at h
    injection h with h2
    exact h2.symm
  · intro data rec hport hok
    have h := (defaults_ok_fields hok).2.1
    rw [h]
    simp [dictGet, hport]

/-- C7 witness: the theorem applied to a host row and a defaults row with
no port cell. -/
theorem spec_C7_w : c7rec.port = Value.int 22 ∧ c7drec.port = Value.none :=
  ⟨spec_C7.1 c7row emptyDefaults c7rec (by decide) (by decide),
   spec_C7.2 c7drow c7drec (by decide) (by decide)⟩

/-- C2 counterexample: a group row whose port cell holds the empty string
(empty per the emptiness predicate) yields a record whose port is the empty
string itself, not an unset value. -/
theorem spec_C2_cex :
    _get_inventory_element [("name", Value.str "core"), ("port", Value.str "")] emptyDefaults =
      Except.ok
        { name := Value.str "core", hostname := Value.none, port := Value.str ""
          username := Value.none, password := Value.none, platform := Value.none
          data := [], groups := GroupsField.raw Value.none, connection_options := [] } ∧
    Value.str "" ≠ Value.none ∧
    pyEmpty (Value.str "") = true := by
  exact ⟨by decide, by decide, rfl⟩

/-- C2 amended: in the host/group builder each scalar identity field is
coerced to its target type when the value is truthy; a NaN value is left
unset; every falsy value — None, and notably the empty string — passes
through unchanged rather than being unset. -/
theorem spec_C2 :
    (∀ v, coerceStr v = amendedScalarCoercion v) ∧
    (∀ v, coerceInt v = amendedIntCoercion v) ∧
    (∀ (data : Row) (d : DefaultsRecord) (rec : HostRecord),
        _get_inventory_element data d = Except.ok rec →
        rec.hostname = amendedScalarCoercion (dictGet data "hostname") ∧
        rec.username = amendedScalarCoercion (dictGet data "username") ∧
        rec.password = amendedScalarCoercion (dictGet data "password") ∧
        amendedIntCoercion (dictGetD data "port" (Value.int 22)) = Except.ok rec.port) := by
  refine ⟨coerceStr_eq_amended, coerceInt_eq_amended, ?_⟩
  intro data d rec hok
  obtain ⟨hp, _, hh, hu, hpw, _, _, _, _⟩ := element_ok_fields hok
  refine ⟨?_, ?_, ?_, ?_⟩
  · rw [hh, coerceStr_eq_amended]
  · rw [hu, coerceStr_eq_amended]
  · rw [hpw, coerceStr_eq_amended]
  · rw [← coerceInt_eq_amended]
    exact hp

/-- C2 witness: the amended theorem applied to a concrete host row with a
numeric-string port. -/
theorem spec_C2_w :
    c2rec.hostname = amendedScalarCoercion (dictGet c2data "hostname") ∧
    amendedIntCoercion (dictGetD c2data "port" (Value.int 22)) = Except.ok c2rec.port := by
  have h := spec_C2.2.2 c2data emptyDefaults c2rec (by decide)
  exact ⟨h.1, h.2.2.2⟩

lemma netmikoStep_skip {k : String} (h : hasNetmiko k = false) (acc : Row) (v : Value) :
    netmikoStep acc k v = Except.ok acc := by
  simp [netmikoStep, h]

lemma pyIntE_error_kinds {v : Value} {e : PyError} (h : pyIntE v = Except.error e) :
    e = PyError.valueError ∨ e = PyError.typeError := by
  cases v with
  | str s =>
    simp only [pyIntE] at h
    cases hp : parseIntChars s.data <;> rw [hp] at h
    · exact Or.inl (by injection h with h2; exact h2.symm)
    · exact absurd h (by simp)
  | int n => exact absurd h (by simp [pyIntE])
  | float q => exact absurd h (by simp [pyIntE])
  | nan => exact Or.inl (by injection h with h2; exact h2.symm)
  | bool b => exact absurd h (by simp [pyIntE])
  | none => exact Or.inr (by injection h with h2; exact h2.symm)

lemma netmikoStep_error_kinds {acc : Row} {k : String} {v : Value} {e : PyError}
    (h : netmikoStep acc k v = Except.error e) :
    e = PyError.valueError ∨ e = PyError.typeError := by
  simp only [netmikoStep] at h
  split at h
  · split at h
    · cases hp : pyIntE v <;> rw [hp] at h
      · injection h with h2
        exact h2 ▸ pyIntE_error_kinds hp
      · exact absurd h (by simp)
    · split at h <;> exact absurd h (by simp)
  · exact absurd h (by simp)

lemma netmikoStep_ok_shape {acc : Row} {k : String} {v : Value} {acc2 : Row}
    (h : netmikoStep acc k v = Except.ok acc2) :
    (hasNetmiko k = false ∧ acc2 = acc) ∨
    (hasNetmiko k = true ∧ ∃ w, acc2 = dictInsertS acc (stripNetmiko k) w) := by
  simp only [netmikoStep] at h
  split at h
  case isTrue hn =>
    right
    refine ⟨hn, ?_⟩
    split at h
    · cases hp : pyIntE v <;> rw [hp] at h
      · exact absurd h (by simp)
      case ok n =>
        injection h with h2
        exact ⟨Value.int n, h2.symm⟩
    · split at h
      · injection h with h2
        exact ⟨Value.bool (boolCoerce v), h2.symm⟩
      · injection h with h2
        exact ⟨normEmpty v, h2.symm⟩
  case isFalse hn =>
    left
    injection h with h2
    exact ⟨by simpa using hn, h2.symm⟩

lemma netmikoFold_error_kinds :
    ∀ (data acc : Row) {e : PyError}, netmikoFold acc data = Except.error e →
      e = PyError.valueError ∨ e = PyError.typeError := by
  intro data
  induction data with
  | nil => intro acc e h; exact absurd h (by simp [netmikoFold])
  | cons kv rest ih =>
    intro acc e h
    obtain ⟨k0, v0⟩ := kv
    simp only [netmikoFold] at h
    cases hs : netmikoStep acc k0 v0 <;> rw [hs] at h
    · injection h with h2
      exact h2 ▸ netmikoStep_error_kinds hs
    · exact ih _ h

lemma netmikoFold_filter :
    ∀ (data acc : Row),
      netmikoFold acc data = netmikoFold acc (data.filter fun kv => hasNetmiko kv.1) := by
  intro data
  induction data with
  | nil => intro acc; rfl
  | cons kv rest ih =>
    intro acc
    obtain ⟨k0, v0⟩ := kv
    by_cases hn : hasNetmiko k0
    · rw [show (((k0, v0) :: rest).filter fun kv => hasNetmiko kv.1) =
            (k0, v0) :: (rest.filter fun kv => hasNetmiko kv.1) from by
          simp [List.filter_cons, hn]]
      simp only [netmikoFold]
      cases hs : netmikoStep acc k0 v0
      · rfl
      · exact ih _
    · rw [show (((k0, v0) :: rest).filter fun kv => hasNetmiko kv.1) =
            rest.filter fun kv => hasNetmiko kv.1 from by
          simp [List.filter_cons, hn]]
      simp only [netmikoFold]
      rw [netmikoStep_skip (by simpa using hn)]
      exact ih _

lemma netmikoStep_int_error {acc : Row} {k : String} {v : Value} {e : PyError}
    (hk : hasNetmiko k = true) (hik : int_keys.contains (stripNetmiko k) = true)
    (hp : pyIntE v = Except.error e) :
    netmikoStep acc k v = Except.error e := by
  simp only [netmikoStep]
  rw [if_pos hk, if_pos hik, hp]

lemma netmikoFold_fails {k : String} {v : Value}
    (hk : hasNetmiko k = true) (hik : int_keys.contains (stripNetmiko k) = true)
    (hv : isOkE (pyIntE v) = false) :
    ∀ (data : Row), (k, v) ∈ data → ∀ acc, isOkE (netmikoFold acc data) = false := by
  intro data
  induction data with
  | nil => intro hm; cases hm
  | cons kv rest ih =>
    intro hm acc
    obtain ⟨k0, v0⟩ := kv
    rcases List.mem_cons.mp hm with heq | hmem
    · injection heq with h1 h2
      subst h1
      subst h2
      have hstep : ∃ e, netmikoStep acc k v = Except.error e := by
        cases hp : pyIntE v
        case error e => exact ⟨e, netmikoStep_int_error hk hik hp⟩
        case ok n =>
          rw [hp] at hv
          exact absurd hv (by simp [isOkE])
      obtain ⟨e, he⟩ := hstep
      simp [netmikoFold, he, isOkE]
    · simp only [netmikoFold]
      cases hs : netmikoStep acc k0 v0
      · simp [isOkE]
      · exact ih hmem _

lemma alookupS_dictInsertS_isSome (m : Row) (k k' : String) (v : Value) :
    (alookupS (dictInsertS m k v) k').isSome = true ↔
      (alookupS m k').isSome = true ∨ k' = k := by
  induction m with
  | nil =>
    by_cases h : k = k'
    · subst h
      simp [dictInsertS, alookupS]
    · have h' : ¬ k' = k := fun hh => h hh.symm
      simp [dictInsertS, alookupS, h, h']
  | cons kv rest ih =>
    obtain ⟨k0, v0⟩ := kv
    by_cases h0 : k0 = k
    · subst h0
      simp only [dictInsertS, if_pos rfl]
      by_cases h1 : k0 = k'
      · subst h1
        simp [alookupS]
      · have h1' : ¬ k' = k0 := fun hh => h1 hh.symm
        simp [alookupS, h1, h1']
    · simp only [dictInsertS, if_neg h0]
      by_cases h1 : k0 = k'
      · subst h1
        simp [alookupS]
      · simp [alookupS, h1, ih]

lemma netmikoFold_keys :
    ∀ (data acc res : Row), netmikoFold acc data = Except.ok res →
      ∀ k' : String,
        ((alookupS res k').isSome = true ↔
          (alookupS acc k').isSome = true ∨
            ∃ kv, kv ∈ data ∧ hasNetmiko kv.1 = true ∧ stripNetmiko kv.1 = k') := by
  intro data
  induction data with
  | nil =>
    intro acc res h k'
    injection h with h2
    subst h2
    simp
  | cons kv rest ih =>
    intro acc res h k'
    obtain ⟨k0, v0⟩ := kv
    simp only [netmikoFold] at h
    cases hs : netmikoStep acc k0 v0 <;> rw [hs] at h
    · exact absurd h (by simp)
    case ok acc2 =>
    have hmain := ih acc2 res h k'
    have hsplit :
        (∃ kv, kv ∈ (k0, v0) :: rest ∧ hasNetmiko kv.1 = true ∧ stripNetmiko kv.1 = k') ↔
          (hasNetmiko k0 = true ∧ stripNetmiko k0 = k') ∨
            ∃ kv, kv ∈ rest ∧ hasNetmiko kv.1 = true ∧ stripNetmiko kv.1 = k' := by
      constructor
      · rintro ⟨kv, hmem, hp⟩
        rcases List.mem_cons.mp hmem with rfl | hmem2
        · exact Or.inl hp
        · exact Or.inr ⟨kv, hmem2, hp⟩
      · rintro (hp | ⟨kv, hmem2, hp⟩)
        · exact ⟨(k0, v0), List.mem_cons_self .., hp⟩
        · exact ⟨kv, List.mem_cons_of_mem _ hmem2, hp⟩
    rw [hsplit]
    rcases netmikoStep_ok_shape hs with ⟨hn, rfl⟩ | ⟨hn, w, rfl⟩
    · rw [hmain]
      constructor
      · rintro (ha | hrest)
        · exact Or.inl ha
        · exact Or.inr (Or.inr hrest)
      · rintro (ha | ⟨hp, _⟩ | hrest)
        · exact Or.inl ha
        · exact absurd hp (by simp [hn])
        · exact Or.inr hrest
    · rw [hmain, alookupS_dictInsertS_isSome]
      constructor
      · rintro ((ha | hks) | hrest)
        · exact Or.inl ha
        · exact Or.inr (Or.inl ⟨hn, hks.symm⟩)
        · exact Or.inr (Or.inr hrest)
      · rintro (ha | ⟨_, hstrip⟩ | hrest)
        · exact Or.inl (Or.inl ha)
        · exact Or.inl (Or.inr hstrip.symm)
        · exact Or.inr hrest

/-- C4 counterexample: the key `a_netmiko_timeout` does not begin with the
vendor prefix, yet its (all-occurrence-stripped) residue is placed in the
connection-options extras. -/
theorem spec_C4_cex :
    _get_host_netmiko_options [("a_netmiko_timeout", Value.str "5")] =
      Except.ok
        [("netmiko",
          ⟨Value.none, Value.none, Value.none, Value.none, Value.none,
           some [("a_timeout", Value.str "5")]⟩)] ∧
    ¬ (netmikoChars <+: ("a_netmiko_timeout").data) := by
  exact ⟨by decide, by decide⟩

/-- C4 amended: a field is classified as a connection-extra field exactly
when its name contains the substring `netmiko_` anywhere; its extras key is
the name with every occurrence of the substring removed; fields without the
substring never influence the connection options. -/
theorem spec_C4 :
    (∀ (data res : Row), netmikoFold [] data = Except.ok res →
        ∀ k' : String,
          ((alookupS res k').isSome = true ↔
            ∃ kv, kv ∈ data ∧ hasNetmiko kv.1 = true ∧ stripNetmiko kv.1 = k')) ∧
    (∀ data : Row,
        _get_host_netmiko_options data =
          _get_host_netmiko_options (data.filter fun kv => hasNetmiko kv.1)) := by
  constructor
  · intro data res h k'
    have h2 := netmikoFold_keys data [] res h k'
    simpa [alookupS] using h2
  · intro data
    unfold _get_host_netmiko_options
    rw [← netmikoFold_filter]

/-- C4 witness: the characterization applied to a row with one
vendor-marked boolean key. -/
theorem spec_C4_w :
    (alookupS [("fast_cli", Value.bool true)] "fast_cli").isSome = true ↔
      ∃ kv, kv ∈ [("netmiko_fast_cli", Value.str "1")] ∧ hasNetmiko kv.1 = true ∧
        stripNetmiko kv.1 = "fast_cli" :=
  spec_C4.1 [("netmiko_fast_cli", Value.str "1")] [("fast_cli", Value.bool true)]
    (by decide) "fast_cli"

lemma fieldsFor_contains_iff (flag : Bool) (k : String) :
    (fieldsFor flag).contains k = true ↔
      (k ∈ no_data_fields ∨ (flag = true ∧ k = groupsKey)) := by
  have base : ∀ (l : List String), l.contains k = true ↔ k ∈ l := fun l => List.elem_iff
  cases flag
  · rw [show fieldsFor false = no_data_fields from rfl, base]
    simp
  · rw [show fieldsFor true = no_data_fields ++ [groupsKey] from rfl, base]
    simp [List.mem_append]

lemma getData_cons (flag : Bool) (k0 : String) (v0 : Value) (rest : Row) :
    _get_data ((k0, v0) :: rest) flag =
      if (!((fieldsFor flag).contains k0) && !(hasNetmiko k0)) = true then
        (k0, normEmpty v0) :: _get_data rest flag
      else _get_data rest flag := by
  by_cases hc : (!((fieldsFor flag).contains k0) && !(hasNetmiko k0)) = true
  · rw [if_pos hc]
    simp only [_get_data, List.filterMap_cons, if_pos hc]
  · rw [if_neg hc]
    simp only [_get_data, List.filterMap_cons, if_neg hc]

lemma alookupS_getData (data : Row) (flag : Bool) (k : String) :
    alookupS (_get_data data flag) k =
      if (!((fieldsFor flag).contains k) && !(hasNetmiko k)) = true then
        (alookupS data k).map normEmpty
      else Option.none := by
  induction data with
  | nil =>
    by_cases h : (!((fieldsFor flag).contains k) && !(hasNetmiko k)) = true <;>
      rw [show _get_data [] flag = [] from rfl] <;>
      simp [alookupS, h]
  | cons kv rest ih =>
    obtain ⟨k0, v0⟩ := kv
    rw [getData_cons]
    by_cases hc : (!((fieldsFor flag).contains k0) && !(hasNetmiko k0)) = true
    · rw [if_pos hc]
      by_cases h0 : k0 = k
      · subst h0
        rw [show alookupS ((k0, normEmpty v0) :: _get_data rest flag) k0 =
              some (normEmpty v0) from by simp [alookupS]]
        rw [show alookupS ((k0, v0) :: rest) k0 = some v0 from by simp [alookupS]]
        rw [if_pos hc]
        rfl
      · rw [show alookupS ((k0, normEmpty v0) :: _get_data rest flag) k =
              alookupS (_get_data rest flag) k from by simp [alookupS, h0]]
        rw [show alookupS ((k0, v0) :: rest) k = alookupS rest k from by
              simp [alookupS, h0]]
        exact ih
    · rw [if_neg hc]
      by_cases h0 : k0 = k
      · subst h0
        rw [ih, if_neg hc, if_neg hc]
      · rw [ih, show alookupS ((k0, v0) :: rest) k = alookupS rest k from by
              simp [alookupS, h0]]

/-- C3 counterexample: built from a defaults row, the free-form data keeps
the `groups` key (the defaults path never sets the isDefaults flag) and
drops `a_netmiko_b`, a key that does not begin with the vendor prefix. -/
theorem spec_C3_cex :
    _get_defaults c3row = Except.ok c3rec ∧
    alookupS c3rec.data "a_netmiko_b" = Option.none ∧
    alookupS c3rec.data groupsKey = some (Value.str "g") ∧
    ¬ (netmikoChars <+: ("a_netmiko_b").data) :=
  ⟨by decide, by decide, by decide, by decide⟩

/-- C3 amended: the free-form mapping keeps exactly the row keys that are
not identity fields, do not contain the vendor substring, and are not the
groups key under the isDefaults flag; kept empty values become an explicit
None; the defaults build path calls the classifier without the flag, so its
record keeps a groups key. -/
theorem spec_C3 :
    (∀ (data : Row) (flag : Bool) (k : String) (v : Value),
        alookupS data k = some v →
        ¬ k ∈ no_data_fields → ¬ (flag = true ∧ k = groupsKey) → hasNetmiko k = false →
        alookupS (_get_data data flag) k = some (normEmpty v)) ∧
    (∀ (data : Row) (flag : Bool) (k : String),
        (k ∈ no_data_fields ∨ (flag = true ∧ k = groupsKey) ∨ hasNetmiko k = true) →
        alookupS (_get_data data flag) k = Option.none) ∧
    (∀ (data : Row) (flag : Bool) (k : String),
        alookupS data k = Option.none → alookupS (_get_data data flag) k = Option.none) ∧
    (∀ (data : Row) (rec : DefaultsRecord),
        _get_defaults data = Except.ok rec → rec.data = _get_data data false) := by
  refine ⟨?_, ?_, ?_, ?_⟩
  · intro data flag k v hv hnd hfg hnm
    have hcont : (fieldsFor flag).contains k = false := by
      have hnot : ¬ ((fieldsFor flag).contains k = true) := by
        rw [fieldsFor_contains_iff]
        rintro (h | h)
        · exact hnd h
        · exact hfg h
      simpa using hnot
    rw [alookupS_getData, if_pos (by rw [hcont, hnm]; rfl), hv]
    rfl
  · intro data flag k hbad
    rw [alookupS_getData]
    rcases hbad with h | h | h
    · rw [if_neg (by rw [(fieldsFor_contains_iff flag k).mpr (Or.inl h)]; simp)]
    · rw [if_neg (by rw [(fieldsFor_contains_iff flag k).mpr (Or.inr h)]; simp)]
    · rw [if_neg (by rw [h]; simp)]
  · intro data flag k habs
    rw [alookupS_getData, habs]
    split <;> rfl
  · intro data rec hok
    exact (defaults_ok_fields hok).2.2.2.2.2.1

/-- C3 witness: a retained key with an empty value is kept with an explicit
no-value marker. -/
theorem spec_C3_w :
    alookupS (_get_data [("site", Value.str "")] false) "site" = some (normEmpty (Value.str "")) :=
  spec_C3.1 [("site", Value.str "")] false "site" (Value.str "")
    (by decide) (by decide) (by simp) (by decide)

lemma netmikoStep_int_ok {acc : Row} {k : String} {v : Value} {n : Int}
    (hk : hasNetmiko k = true) (hik : int_keys.contains (stripNetmiko k) = true)
    (hp : pyIntE v = Except.ok n) :
    netmikoStep acc k v = Except.ok (dictInsertS acc (stripNetmiko k) (Value.int n)) := by
  simp only [netmikoStep]
  rw [if_pos hk, if_pos hik, hp]

lemma options_error_of_fold_fail {data : Row} (h : isOkE (netmikoFold [] data) = false) :
    ∃ e, _get_host_netmiko_options data = Except.error e := by
  unfold _get_host_netmiko_options
  cases hf : netmikoFold [] data
  case error e => exact ⟨e, rfl⟩
  case ok l =>
    rw [hf] at h
    exact absurd h (by simp [isOkE])

lemma element_not_ok_of_options_error {data : Row} {e : PyError}
    (h : _get_host_netmiko_options data = Except.error e) :
    ∀ (d : DefaultsRecord) (rec : HostRecord), _get_inventory_element data d ≠ Except.ok rec := by
  intro d rec hok
  unfold _get_inventory_element at hok
  cases hc : coerceInt (dictGetD data "port" (Value.int 22)) <;> rw [hc] at hok
  case error e2 => exact absurd hok (by simp)
  case ok p =>
    cases hg : parseGroups (dictGet data groupsKey) <;> rw [hg] at hok
    case error e2 => exact absurd hok (by simp)
    case ok gs =>
      rw [h] at hok
      exact absurd hok (by simp)

lemma rowFails_of_no_name {r : Row} (h : alookupS r "name" = Option.none) : rowFails r := by
  simp only [rowFails, h]

lemma rowFails_of_empty_name {r : Row} {v : Value} (h : alookupS r "name" = some v)
    (he : pyEmpty v = true) : rowFails r := by
  simp only [rowFails, h]
  exact Or.inl he

lemma rowFails_of_bad_element {r : Row}
    (h : ∀ d rec, _get_inventory_element r d ≠ Except.ok rec) : rowFails r := by
  cases hn : alookupS r "name"
  · simp only [rowFails, hn]
  · simp only [rowFails, hn]
    exact Or.inr h

lemma buildEntities_fails {r : Row} (hf : rowFails r) (d : DefaultsRecord) :
    ∀ (rows : List Row), r ∈ rows → ∀ acc, isOkE (buildEntities d rows acc) = false := by
  intro rows
  induction rows with
  | nil => intro hm; cases hm
  | cons r0 rest ih =>
    intro hm acc
    rcases List.mem_cons.mp hm with rfl | hmem
    · cases hn : alookupS r "name"
      · simp [buildEntities, hn, isOkE]
      case some v =>
        simp only [rowFails, hn] at hf
        by_cases he : pyEmpty v = true
        · simp [buildEntities, hn, he, isOkE]
        · rcases hf with hf1 | hf2
          · exact absurd hf1 he
          · cases hel : _get_inventory_element r d with
            | error e => simp [buildEntities, hn, he, hel, isOkE]
            | ok rec => exact absurd hel (hf2 d rec)
    · cases hn : alookupS r0 "name"
      · simp [buildEntities, hn, isOkE]
      case some v =>
        by_cases he : pyEmpty v = true
        · simp [buildEntities, hn, he, isOkE]
        · cases hel : _get_inventory_element r0 d with
          | error e => simp [buildEntities, hn, he, hel, isOkE]
          | ok rec =>
            have hred : buildEntities d (r0 :: rest) acc =
                buildEntities d rest (dictInsertV acc v rec) := by
              simp [buildEntities, hn, he, hel]
            rw [hred]
            exact ih hmem _

lemma buildEntities_cons_empty {d : DefaultsRecord} {r : Row} {rest : List Row} {acc : EntityMap}
    {v : Value} (hn : alookupS r "name" = some v) (he : pyEmpty v = true) :
    buildEntities d (r :: rest) acc =
      Except.error (PyError.loadError "HOST name must not be empty") := by
  simp [buildEntities, hn, he]

lemma load_not_ok {hd gd : List Row} {dd : Row} {r : Row}
    (hm : r ∈ gd ∨ r ∈ hd) (hf : rowFails r) :
    isOkE (load hd gd dd) = false := by
  cases hdft : defaultsStage dd with
  | error e => simp [load, hdft, isOkE]
  | ok d =>
    rcases hm with hg | hh
    · have hgs : ∃ e, groupsStage d gd = Except.error e := by
        unfold groupsStage
        have hne : gd.isEmpty = false := by
          cases gd
          · cases hg
          · rfl
        rw [if_neg (by simp [hne])]
        cases hb : buildEntities d gd [] with
        | error e => exact ⟨e, rfl⟩
        | ok g =>
          have hface := buildEntities_fails hf d gd hg []
          rw [hb] at hface
          exact absurd hface (by simp [isOkE])
      obtain ⟨e, he⟩ := hgs
      simp [load, hdft, he, isOkE]
    · cases hgs : groupsStage d gd with
      | error e => simp [load, hdft, hgs, isOkE]
      | ok g =>
        have hh2 : ∃ e, hostsStage d g hd = Except.error e := by
          unfold hostsStage
          cases hb : buildEntities d hd [] with
          | error e => exact ⟨e, rfl⟩
          | ok h0 =>
            have hface := buildEntities_fails hf d hd hh []
            rw [hb] at hface
            exact absurd hface (by simp [isOkE])
        obtain ⟨e, he⟩ := hh2
        simp [load, hdft, hgs, he, isOkE]

lemma resolveNames_ok {gmap : EntityMap} :
    ∀ {names out : List String}, resolveNames gmap names = Except.ok out →
      out = names ∧ ∀ n ∈ names, (alookupV gmap (Value.str n)).isSome = true := by
  intro names
  induction names with
  | nil =>
    intro out h
    injection h with h2
    subst h2
    exact ⟨rfl, by simp⟩
  | cons n rest ih =>
    intro out h
    simp only [resolveNames] at h
    cases hl : alookupV gmap (Value.str n) <;> rw [hl] at h
    · exact absurd h (by simp)
    case some rec0 =>
      cases hr : resolveNames gmap rest <;> rw [hr] at h
      case error e => exact absurd h (by simp)
      case ok t =>
        injection h with h2
        subst h2
        obtain ⟨ht, hall⟩ := ih hr
        subst ht
        refine ⟨rfl, ?_⟩
        intro m hm
        rcases List.mem_cons.mp hm with rfl | hmem
        · simp [hl]
        · exact hall m hmem

lemma resolveMap_keys {gmap : EntityMap} :
    ∀ {entries out : EntityMap}, resolveMap gmap entries = Except.ok out →
      out.map Prod.fst = entries.map Prod.fst := by
  intro entries
  induction entries with
  | nil =>
    intro out h
    injection h with h2
    subst h2
    rfl
  | cons p rest ih =>
    intro out h
    obtain ⟨k0, rec0⟩ := p
    simp only [resolveMap] at h
    cases hr : resolveRecord gmap rec0 <;> rw [hr] at h
    · exact absurd h (by simp)
    case ok rec2 =>
      cases ht : resolveMap gmap rest <;> rw [ht] at h
      case error e => exact absurd h (by simp)
      case ok t =>
        injection h with h2
        subst h2
        simp [List.map, ih ht]

lemma resolveRecord_ok {gmap : EntityMap} {rec rec2 : HostRecord}
    (h : resolveRecord gmap rec = Except.ok rec2) :
    ∃ names, rec2.groups = GroupsField.list names ∧
      ∀ n ∈ names, (alookupV gmap (Value.str n)).isSome = true := by
  unfold resolveRecord at h
  cases hg : groupNames rec.groups with
  | error e =>
    rw [hg] at h
    exact absurd h (by simp)
  | ok names =>
    simp only [hg] at h
    cases hr : resolveNames gmap names with
    | error e =>
      rw [hr] at h
      exact absurd h (by simp)
    | ok resolved =>
      simp only [hr] at h
      injection h with h2
      subst h2
      obtain ⟨ht, hall⟩ := resolveNames_ok hr
      subst ht
      exact ⟨resolved, rfl, hall⟩

lemma resolveMap_sound {gmap : EntityMap} :
    ∀ {entries out : EntityMap}, resolveMap gmap entries = Except.ok out →
      ∀ p ∈ out,
        ∃ names, p.2.groups = GroupsField.list names ∧
          ∀ n ∈ names, (alookupV gmap (Value.str n)).isSome = true := by
  intro entries
  induction entries with
  | nil =>
    intro out h p hp
    injection h with h2
    subst h2
    cases hp
  | cons q rest ih =>
    intro out h p hp
    obtain ⟨k0, rec0⟩ := q
    simp only [resolveMap] at h
    cases hr : resolveRecord gmap rec0 <;> rw [hr] at h
    · exact absurd h (by simp)
    case ok rec2 =>
      cases ht : resolveMap gmap rest <;> rw [ht] at h
      case error e => exact absurd h (by simp)
      case ok t =>
        injection h with h2
        subst h2
        rcases List.mem_cons.mp hp with rfl | hmem
        · exact resolveRecord_ok hr
        · exact ih ht p hmem

lemma alookupV_isSome_of_keys :
    ∀ {m1 m2 : EntityMap}, m1.map Prod.fst = m2.map Prod.fst → ∀ (k : Value),
      (alookupV m1 k).isSome = (alookupV m2 k).isSome := by
  intro m1
  induction m1 with
  | nil =>
    intro m2 hk k
    cases m2 with
    | nil => rfl
    | cons p r => exact absurd hk (by simp)
  | cons p rest ih =>
    intro m2 hk k
    cases m2 with
    | nil => exact absurd hk (by simp)
    | cons p2 rest2 =>
      obtain ⟨k0, v0⟩ := p
      obtain ⟨k2, v2⟩ := p2
      simp only [List.map, List.cons.injEq] at hk
      obtain ⟨hk0, hrest⟩ := hk
      subst hk0
      by_cases h : k0 = k <;> simp [alookupV, h, ih hrest]

/-- C10: a group or host row with no name key at all aborts the load with a
KeyError from the direct subscript — before the emptiness check and before
the record build (the concrete scenario's row would otherwise fail with a
ValueError from its bad vendor field) — and no Inventory is returned. -/
theorem spec_C10 :
    (∀ (hd gd : List Row) (dd : Row) (r : Row), (r ∈ gd ∨ r ∈ hd) →
        alookupS r "name" = Option.none → isOkE (load hd gd dd) = false) ∧
    load [] [[("netmiko_timeout", Value.str "x")]] [] =
      Except.error (PyError.keyError "name") := by
  constructor
  · intro hd gd dd r hm hn
    exact load_not_ok hm (rowFails_of_no_name hn)
  · decide

/-- C10 witness: the abort applied to a host row without a name key. -/
theorem spec_C10_w :
    isOkE (load [[("hostname", Value.str "10.0.0.1")]] [] []) = false :=
  spec_C10.1 [[("hostname", Value.str "10.0.0.1")]] [] [] [("hostname", Value.str "10.0.0.1")]
    (Or.inr (by decide)) (by decide)

/-- C5 counterexample: a group row with an empty name aborts the load, but
with the message `HOST name must not be empty`, not the claimed message
`group name must not be empty`. -/
theorem spec_C5_cex :
    load [] [[("name", Value.str "")]] [] =
      Except.error (PyError.loadError "HOST name must not be empty") ∧
    "HOST name must not be empty" ≠ "group name must not be empty" :=
  ⟨by decide, by decide⟩

/-- C5 amended: an empty name in any group or host row aborts the load with
no Inventory; the raised message is `HOST name must not be empty` for group
rows and host rows alike. -/
theorem spec_C5 :
    (∀ (hd gd : List Row) (dd : Row) (r : Row) (v : Value), (r ∈ gd ∨ r ∈ hd) →
        alookupS r "name" = some v → pyEmpty v = true → isOkE (load hd gd dd) = false) ∧
    (∀ (hd rest : List Row) (r : Row) (v : Value),
        alookupS r "name" = some v → pyEmpty v = true →
        load hd (r :: rest) [] =
          Except.error (PyError.loadError "HOST name must not be empty")) ∧
    (∀ (rest : List Row) (r : Row) (v : Value),
        alookupS r "name" = some v → pyEmpty v = true →
        load (r :: rest) [] [] =
          Except.error (PyError.loadError "HOST name must not be empty")) := by
  refine ⟨?_, ?_, ?_⟩
  · intro hd gd dd r v hm hn he
    exact load_not_ok hm (rowFails_of_empty_name hn he)
  · intro hd rest r v hn he
    have hgrp : groupsStage emptyDefaults (r :: rest) =
        Except.error (PyError.loadError "HOST name must not be empty") := by
      unfold groupsStage
      rw [if_neg (by simp), buildEntities_cons_empty hn he]
    simp [load, show defaultsStage [] = Except.ok emptyDefaults from rfl, hgrp]
  · intro rest r v hn he
    have hhst : hostsStage emptyDefaults [] (r :: rest) =
        Except.error (PyError.loadError "HOST name must not be empty") := by
      unfold hostsStage
      rw [buildEntities_cons_empty hn he]
    simp [load, show defaultsStage [] = Except.ok emptyDefaults from rfl,
      show groupsStage emptyDefaults [] = Except.ok [] from rfl, hhst]

/-- C5 witness: the amended theorem applied to a NaN-named group row and to
an empty-named first group row. -/
theorem spec_C5_w :
    isOkE (load [[("name", Value.str "x")]] [[("name", Value.nan)]] []) = false ∧
    load [] [[("name", Value.str "")], [("name", Value.str "y")]] [] =
      Except.error (PyError.loadError "HOST name must not be empty") :=
  ⟨spec_C5.1 [[("name", Value.str "x")]] [[("name", Value.nan)]] [] [("name", Value.nan)]
      Value.nan (Or.inl (by decide)) (by decide) (by decide),
   spec_C5.2.1 [] [[("name", Value.str "y")]] [("name", Value.str "")] (Value.str "")
      (by decide) (by decide)⟩

/-- C8: a vendor field with an integer-coerced suffix and an unparsable
value makes the extras builder raise a conversion error (a ValueError, or a
TypeError for a stored None), which no caller catches, so the whole load
aborts; a numeric string like "30" lands in the extras as the integer 30. -/
theorem spec_C8 :
    (∀ (row : Row) (k : String) (v : Value), (k, v) ∈ row → hasNetmiko k = true →
        int_keys.contains (stripNetmiko k) = true → isOkE (pyIntE v) = false →
        ∃ e, netmikoFold [] row = Except.error e ∧
          (e = PyError.valueError ∨ e = PyError.typeError)) ∧
    (∀ (hd gd : List Row) (dd : Row) (r : Row) (k : String) (v : Value),
        (r ∈ gd ∨ r ∈ hd) → (k, v) ∈ r → hasNetmiko k = true →
        int_keys.contains (stripNetmiko k) = true → isOkE (pyIntE v) = false →
        isOkE (load hd gd dd) = false) ∧
    (∀ (row : Row) (k : String) (v : Value) (n : Int),
        (row.filter fun kv => hasNetmiko kv.1) = [(k, v)] →
        int_keys.contains (stripNetmiko k) = true → pyIntE v = Except.ok n →
        _get_host_netmiko_options row =
          Except.ok
            [("netmiko",
              ⟨Value.none, Value.none, Value.none, Value.none, Value.none,
               some [(stripNetmiko k, Value.int n)]⟩)]) := by
  refine ⟨?_, ?_, ?_⟩
  · intro row k v hm hk hik hv
    have hfail := netmikoFold_fails hk hik hv row hm []
    cases hf : netmikoFold [] row
    case error e => exact ⟨e, rfl, netmikoFold_error_kinds row [] hf⟩
    case ok l =>
      rw [hf] at hfail
      exact absurd hfail (by simp [isOkE])
  · intro hd gd dd r k v hm hkv hk hik hv
    have hfail := netmikoFold_fails hk hik hv r hkv []
    obtain ⟨e, he⟩ := options_error_of_fold_fail hfail
    exact load_not_ok hm (rowFails_of_bad_element (element_not_ok_of_options_error he))
  · intro row k v n hfilter hik hp
    have hkmem : (k, v) ∈ row.filter fun kv => hasNetmiko kv.1 := by
      rw [hfilter]
      exact List.mem_singleton.mpr rfl
    have hk : hasNetmiko k = true := (List.mem_filter.mp hkmem).2
    unfold _get_host_netmiko_options
    rw [netmikoFold_filter, hfilter]
    rw [show netmikoFold [] [(k, v)] =
          Except.ok [(stripNetmiko k, Value.int n)] from by
        simp only [netmikoFold]
        rw [netmikoStep_int_ok hk hik hp]
        rfl]

/-- C8 witness: the abort applied to a host row with a bad
`netmiko_timeout`, and the value part applied to a row holding "30". -/
theorem spec_C8_w :
    isOkE (load [[("name", Value.str "h1"), ("netmiko_timeout", Value.str "x")]] [] []) = false ∧
    _get_host_netmiko_options [("netmiko_timeout", Value.str "30")] =
      Except.ok
        [("netmiko",
          ⟨Value.none, Value.none, Value.none, Value.none, Value.none,
           some [(stripNetmiko "netmiko_timeout", Value.int 30)]⟩)] :=
  ⟨spec_C8.2.1 [[("name", Value.str "h1"), ("netmiko_timeout", Value.str "x")]] [] []
      [("name", Value.str "h1"), ("netmiko_timeout", Value.str "x")] "netmiko_timeout"
      (Value.str "x") (Or.inr (by decide)) (by decide) (by decide) (by decide) (by decide),
   spec_C8.2.2 [("netmiko_timeout", Value.str "30")] "netmiko_timeout" (Value.str "30") 30
      (by decide) (by decide) (by decide)⟩

/-- C6: the spec's missing-reference scenario fails with a KeyError and, on
every successful load, each group's and host's resolved group list names
only groups present in the completed groups mapping. -/
theorem spec_C6 :
    load [[("name", Value.str "r1"), ("groups", Value.str "core")]] [] [] =
      Except.error (PyError.keyError "core") ∧
    (∀ (hd gd : List Row) (dd : Row) (inv : Inventory),
        load hd gd dd = Except.ok inv →
        ∀ p ∈ inv.groups ++ inv.hosts,
          ∃ names, p.2.groups = GroupsField.list names ∧
            ∀ n ∈ names, (alookupV inv.groups (Value.str n)).isSome = true) := by
  constructor
  · decide
  · intro hd gd dd inv hok p hp
    simp only [load] at hok
    cases hdft : defaultsStage dd with
    | error e =>
      rw [hdft] at hok
      exact absurd hok (by simp)
    | ok d =>
    simp only [hdft] at hok
    cases hgs : groupsStage d gd with
    | error e =>
      rw [hgs] at hok
      exact absurd hok (by simp)
    | ok g =>
    simp only [hgs] at hok
    cases hhs : hostsStage d g hd with
    | error e =>
      rw [hhs] at hok
      exact absurd hok (by simp)
    | ok h =>
    simp only [hhs] at hok
    injection hok with h2
    subst h2
    rcases List.mem_append.mp hp with hpg | hph
    · unfold groupsStage at hgs
      by_cases hge : gd.isEmpty = true
      · rw [if_pos hge] at hgs
        injection hgs with h3
        rw [← h3] at hpg
        cases hpg
      · rw [if_neg hge] at hgs
        cases hbe : buildEntities d gd [] with
        | error e =>
          rw [hbe] at hgs
          exact absurd hgs (by simp)
        | ok g0 =>
          rw [hbe] at hgs
          obtain ⟨names, hnames, hall⟩ := resolveMap_sound hgs p hpg
          refine ⟨names, hnames, fun n hn => ?_⟩
          rw [alookupV_isSome_of_keys (resolveMap_keys hgs) (Value.str n)]
          exact hall n hn
    · unfold hostsStage at hhs
      cases hbe : buildEntities d hd [] with
      | error e =>
        rw [hbe] at hhs
        exact absurd hhs (by simp)
      | ok h0 =>
        rw [hbe] at hhs
        obtain ⟨names, hnames, hall⟩ := resolveMap_sound hhs p hph
        exact ⟨names, hnames, hall⟩

/-- C6 witness: on the successful sample load, the host's resolved
reference `core` is a key of the completed groups mapping. -/
theorem spec_C6_w : (alookupV c6inv.groups (Value.str "core")).isSome = true := by
  obtain ⟨names, hnames, hall⟩ :=
    spec_C6.2 c6hosts c6groups [] c6inv (by decide) c6hostEntry (by decide)
  have h3 : GroupsField.list ["core"] = GroupsField.list names := hnames
  injection h3 with h4
  refine hall "core" ?_
  rw [← h4]
  decide

end TableInv
